import Mathlib

set_option linter.unusedSectionVars false

deriving instance DecidableEq for Except

/-!
Verification development for the extended balance-padding plugin
(`beancount_lazy_plugins/pad_extended.py`).

The Python source is shallowly embedded below.  Python `Decimal` amounts are
exact numbers; the embedding is parameterized by a linearly ordered additive
commutative group `α` of amount values (the plugin only adds, subtracts,
negates and compares amounts), which covers the exact decimals; concrete
evaluations instantiate `α` with the integers.  beancount directives become an
inductive payload type carrying the fields the plugin reads, the mutable walk
state becomes an explicit state record, and raised exceptions become
`Except.error`.  Host services that the plugin calls (the `re` module,
`str.format` and `str.split`, the realization timeline builder, tolerance
inference) are modelled at their interface, restricted to the behaviour the
plugin exercises.
-/

namespace PadExt

abbrev Currency := String
abbrev AccountName := String
abbrev Date := Nat

variable {α : Type} [LinearOrderedAddCommGroup α]

/-- beancount `Amount`: an exact decimal number together with a currency
code. -/
structure Amount (α : Type) where
  number : α
  currency : Currency
  deriving DecidableEq

/-- Cost basis attached to a position.  The plugin only ever tests for its
presence and threads it through unchanged, so a number/currency pair is
enough. -/
structure Cost (α : Type) where
  number : α
  currency : Currency
  deriving DecidableEq

/-- beancount `Position`: units with an optional cost basis. -/
structure Position (α : Type) where
  units : Amount α
  cost : Option (Cost α)
  deriving DecidableEq

/-- Source `Position.from_amounts(units)`: a cost-free position. -/
def Position.from_amounts (units : Amount α) : Position α :=
  ⟨units, none⟩

/-- Python `-position`: negate the units, keep the cost. -/
def Position.neg (p : Position α) : Position α :=
  ⟨⟨-p.units.number, p.units.currency⟩, p.cost⟩

/-- Source `Position.is_negative_at_cost()`: held at cost with negative units. -/
def Position.is_negative_at_cost (p : Position α) : Bool :=
  p.cost.isSome && decide (p.units.number < 0)

/-- beancount `Inventory`: a collection of positions keyed by
(currency, cost).  Modelled as a list of lots, one per key. -/
abbrev Inventory (α : Type) := List (Position α)

/-- Source `Inventory.add_position`: merge a position into the lot with the same
(currency, cost) key, summing the numbers; a lot reaching zero is removed and
`none` is returned for it, otherwise the resulting lot is returned.  A missing
key creates a new lot. -/
def addToLots : Inventory α → Position α → Inventory α × Option (Position α)
  | [], p => ([p], some p)
  | q :: rest, p =>
    if q.units.currency = p.units.currency ∧ q.cost = p.cost then
      let n := q.units.number + p.units.number
      if n = 0 then (rest, none)
      else
        let merged : Position α := ⟨⟨n, p.units.currency⟩, p.cost⟩
        (merged :: rest, some merged)
    else
      let r := addToLots rest p
      (q :: r.1, r.2)

/-- Source `Inventory.get_currency_units(c).number`: total units held in currency
`c`, across all cost bases. -/
def currencyUnits (inv : Inventory α) (c : Currency) : α :=
  (inv.map (fun p => if p.units.currency = c then p.units.number else 0)).sum

/-! ### Model of the Python `re` module (restricted)

The plugin compiles user regexes with `re.compile` and applies them with
`pattern.match(account)` (anchored at the start, a prefix match).  We model
the fragment the plugin and its configuration exercise: literal characters,
`.`, `*`, a leading `^` anchor and a trailing `$` anchor.  Other
metacharacters are modelled as compile-time errors; the invalid-regex
scenarios below use `(`, which the Python engine likewise rejects. -/

inductive RAtom where
  | dot : RAtom
  | lit : Char → RAtom
  deriving DecidableEq

structure RPiece where
  atom : RAtom
  starred : Bool
  deriving DecidableEq

structure CompiledRegex where
  pieces : List RPiece
  endAnchor : Bool
  deriving DecidableEq

def RAtom.matchesChar : RAtom → Char → Bool
  | .dot, c => c ≠ '\n'
  | .lit a, c => a = c

def parseRAtom (c : Char) : Except String RAtom :=
  if c = '(' ∨ c = ')' ∨ c = '[' ∨ c = ']' ∨ c = '+' ∨ c = '?' ∨
     c = '|' ∨ c = '\\' ∨ c = '^' then
    .error "unsupported construct"
  else
    .ok (if c = '.' then .dot else .lit c)

def compilePieces : List Char → Except String (List RPiece × Bool)
  | [] => .ok ([], false)
  | '$' :: [] => .ok ([], true)
  | '$' :: _ :: _ => .error "unsupported anchor position"
  | '*' :: _ => .error "nothing to repeat"
  | c :: '*' :: rest2 =>
    match parseRAtom c with
    | .error e => .error e
    | .ok atom =>
      match compilePieces rest2 with
      | .error e => .error e
      | .ok (ps, e) => .ok (⟨atom, true⟩ :: ps, e)
  | c :: rest =>
    match parseRAtom c with
    | .error e => .error e
    | .ok atom =>
      match compilePieces rest with
      | .error e => .error e
      | .ok (ps, e) => .ok (⟨atom, false⟩ :: ps, e)

/-- Source `re.compile`: strip the redundant leading `^` (`match` is start-anchored
anyway) and parse the remaining pattern. -/
def reCompile (s : String) : Except String CompiledRegex :=
  let cs := match s.toList with
    | '^' :: rest => rest
    | cs => cs
  match compilePieces cs with
  | .error e => .error e
  | .ok (ps, e) => .ok ⟨ps, e⟩

/-- The suffixes of the input reachable by letting a starred atom consume
zero or more matching characters (the backtracking choices of `a*`). -/
def starSuffixes (a : RAtom) : List Char → List (List Char)
  | [] => [[]]
  | c :: cs =>
    (c :: cs) :: (if a.matchesChar c then starSuffixes a cs else [])

/-- Matching engine for the compiled fragment: can the pieces consume a prefix
of the input (the whole input when the end anchor is present)?  A starred
piece tries every reachable suffix, as the backtracking Python engine does. -/
def matchSeq : List RPiece → List Char → Bool → Bool
  | [], cs, endA => if endA then cs.isEmpty else true
  | p :: ps, cs, endA =>
    if p.starred then
      (starSuffixes p.atom cs).any (fun cs2 => matchSeq ps cs2 endA)
    else
      match cs with
      | [] => false
      | c :: cs2 => p.atom.matchesChar c && matchSeq ps cs2 endA

/-- Source `pattern.match(s)` as a boolean: start-anchored prefix match. -/
def CompiledRegex.matchb (r : CompiledRegex) (s : String) : Bool :=
  matchSeq r.pieces s.toList r.endAnchor

/-! ### Models of `str.format`, `str.split` and string comparison

Templates use only the `{type}` and `{name}` fields; other text is copied
verbatim. -/

def formatChars : List Char → List Char → List Char → List Char
  | [], _, _ => []
  | '{' :: 't' :: 'y' :: 'p' :: 'e' :: '}' :: rest, ty, nm =>
    ty ++ formatChars rest ty nm
  | '{' :: 'n' :: 'a' :: 'm' :: 'e' :: '}' :: rest, ty, nm =>
    nm ++ formatChars rest ty nm
  | c :: rest, ty, nm => c :: formatChars rest ty nm

def formatTemplate (tmpl ty nm : String) : String :=
  ⟨formatChars tmpl.toList ty.toList nm.toList⟩

/-- Model of Python `str.split(sep)` for a single-character separator (the
plugin splits account paths on the colon). -/
def splitChar (sep : Char) : List Char → List (List Char)
  | [] => [[]]
  | c :: cs =>
    let r := splitChar sep cs
    if c = sep then [] :: r
    else
      match r with
      | [] => [[c]]
      | h :: t => (c :: h) :: t

def pySplit (sep : Char) (s : String) : List String :=
  (splitChar sep s.toList).map (fun l => ⟨l⟩)

/-- Code-point lexicographic string order, as Python compares strings (used
by `sorted` over account names). -/
def charListLE : List Char → List Char → Bool
  | [], _ => true
  | _ :: _, [] => false
  | a :: as, b :: bs => a < b || (a = b && charListLE as bs)

def pyStrLE (a b : String) : Bool :=
  charListLE a.toList b.toList

/-- Python truthiness of an optional string field: present and non-empty. -/
def truthy : Option String → Bool
  | none => false
  | some s => !s.isEmpty

/-! ### Directive model

Only the fields the plugin reads are represented.  `meta` is modelled as a
record of the metadata keys the plugin accesses plus an opaque provenance tag;
`did` is a stable identity standing in for Python `id()`. -/

structure Meta where
  pad_account : Option String := none
  account_regex : Option String := none
  pad_account_expenses : Option String := none
  pad_account_income : Option String := none
  src : Nat := 0
  deriving DecidableEq

/-- A value carried by a `Custom` directive, tagged with its parser dtype. -/
inductive CustomValue where
  | account : AccountName → CustomValue
  | str : String → CustomValue
  deriving DecidableEq

def CustomValue.value : CustomValue → String
  | .account a => a
  | .str s => s

structure Posting (α : Type) where
  account : Option AccountName
  units : Amount α
  cost : Option (Cost α)
  price : Option (Amount α)
  flag : Option String
  meta : Option Meta
  deriving DecidableEq

inductive Payload (α : Type) where
  | txn : (flag : String) → (narration : String) → (postings : List (Posting α)) → Payload α
  | pad : (account : AccountName) → (source_account : AccountName) → Payload α
  | custom : (ctype : String) → (values : List CustomValue) → Payload α
  | balance : (account : AccountName) → (amount : Amount α) → Payload α
  | openAcc : (account : AccountName) → Payload α
  | other : Payload α
  deriving DecidableEq

structure Directive (α : Type) where
  did : Nat
  date : Date
  meta : Meta
  payload : Payload α
  deriving DecidableEq

/-- Source `PadError`: the diagnostic record produced by the plugin. -/
structure PadError (α : Type) where
  source : Option Meta
  message : String
  entry : Option (Directive α)
  deriving DecidableEq

/-- Parsed plugin configuration (the result of `ast.literal_eval` on the
configuration string, typed). -/
structure Config where
  handle_default_pad_directives : Bool := false
  default_pad_account : Option (List (List String)) := none
  generate_errors_on_unused_pad_entries : Bool := false
  deriving DecidableEq

/-- Source `is_pad_entry`: native `Pad` only when the config flag is set; a `Custom`
directive of type `pad-ext` always. -/
def is_pad_entry (d : Directive α) (config : Config) : Bool :=
  match d.payload with
  | .pad _ _ => config.handle_default_pad_directives
  | .custom t _ => t = "pad-ext"
  | _ => false

/-- Source `get_padded_account`: the padded account of a pad marker (for a custom
marker, the first positional value). -/
def get_padded_account (d : Directive α) : AccountName :=
  match d.payload with
  | .pad a _ => a
  | .custom _ vs => (vs.headD (.str "")).value
  | _ => ""

/-- Source `math.copysign(1, x)` on an exact decimal (a positive zero gives `1`). -/
def position_sign (q : α) : Int :=
  if q < 0 then -1 else 1

/-- A pad-account resolution rule. -/
structure RegexToPadAccountMapping where
  regex : CompiledRegex
  pad_account : Option String := none
  pad_account_expenses : Option String := none
  pad_account_income : Option String := none
  deriving DecidableEq

/-- The resolution cache `default_pad_acount_cache`, keyed by
(padded account, imbalance sign). -/
abbrev Cache := List ((AccountName × Int) × String)

def lookupCache (cache : Cache) (k : AccountName × Int) : Option String :=
  match cache.find? (fun e => e.1 = k) with
  | some e => some e.2
  | none => none

/-- The scan over `default_pad_account_config` inside `get_source_account`:
first rule whose regex matches wins; a pair rule selects the income template
for a positive sign and the expenses template otherwise; a matching rule with
neither form raises `ValueError`.  A `none` entry models the `None` the Python
item parser can produce, on which the scan would crash. -/
def scanConfig : List (Option RegexToPadAccountMapping) → AccountName → Int →
    String → String → Except String (Option String)
  | [], _, _, _, _ => .ok none
  | none :: _, _, _, _, _ => .error "AttributeError: NoneType has no attribute regex"
  | some m :: rest, acct, sign, ty, nm =>
    if m.regex.matchb acct then
      if truthy m.pad_account_expenses && truthy m.pad_account_income then
        if sign > 0 then
          .ok (some (formatTemplate (m.pad_account_income.getD "") ty nm))
        else
          .ok (some (formatTemplate (m.pad_account_expenses.getD "") ty nm))
      else if truthy m.pad_account then
        .ok (some (formatTemplate (m.pad_account.getD "") ty nm))
      else
        .error "Invalid default pad account configuration"
    else
      scanConfig rest acct sign ty nm

/-- Source `get_source_account`: precedence chain of the source-account resolution.
Returns the resolved account (or `none` when no rule matches) together with
the updated cache. -/
def get_source_account (pad_entry : Directive α) (diff_position : Position α)
    (config : List (Option RegexToPadAccountMapping)) (cache : Cache) :
    Except String (Option String × Cache) :=
  match pad_entry.payload with
  | .pad _ src => .ok (some src, cache)
  | _ =>
    if truthy pad_entry.meta.pad_account then
      .ok (pad_entry.meta.pad_account, cache)
    else
      let acct := get_padded_account pad_entry
      let sign := position_sign diff_position.units.number
      match lookupCache cache (acct, sign) with
      | some v => .ok (some v, cache)
      | none =>
        let parts := pySplit ':' acct
        let ty := parts.headD ""
        let nm := String.intercalate ":" parts.tail
        match scanConfig config acct sign ty nm with
        | .error e => .error e
        | .ok none => .ok (none, cache)
        | .ok (some res) => .ok (some res, ((acct, sign), res) :: cache)

/-- The built-in default table `DEFAULT_DEFAULT_PAD_ACCOUNT_CONFIG`. -/
def DEFAULT_DEFAULT_PAD_ACCOUNT_CONFIG : List (List String) :=
  [["^.*$", "Expenses:Unattributed:{name}", "Income:Unattributed:{name}"]]

/-- Source `parse_pad_account_item`: parse one `default_pad_account` item.  Items
longer than four raise; an invalid regex raises (`re.error` is not caught
here); a one-element item falls through both branches and yields Python
`None`; in the two-element form the second element is the single template; in
the three-or-four-element form `item[1]` fills the income slot and `item[2]`
the expenses slot. -/
def parse_pad_account_item (item : List String) :
    Except String (Option RegexToPadAccountMapping) :=
  if item.length > 4 then
    .error "Invalid default pad account configuration"
  else
    match item with
    | [] => .error "IndexError: tuple index out of range"
    | pat :: rest =>
      match reCompile pat with
      | .error e => .error e
      | .ok r =>
        match rest with
        | [] => .ok none
        | [a] => .ok (some ⟨r, some a, none, none⟩)
        | a :: b :: _ => .ok (some ⟨r, none, some b, some a⟩)

/-- One iteration of the `get_directives_defined_config` loop: parse one
`pad-ext-config` directive into a rule or a diagnostic. -/
def parseConfigEntry (d : Directive α) :
    Except (PadError α) RegexToPadAccountMapping :=
  if truthy d.meta.account_regex then
    match reCompile (d.meta.account_regex.getD "") with
    | .error e =>
      .error ⟨some d.meta, "Invalid account_regex: " ++ e, some d⟩
    | .ok r =>
      if truthy d.meta.pad_account_expenses && truthy d.meta.pad_account_income then
        .ok ⟨r, none, d.meta.pad_account_expenses, d.meta.pad_account_income⟩
      else if truthy d.meta.pad_account then
        .ok ⟨r, d.meta.pad_account, none, none⟩
      else
        .error ⟨some d.meta,
          "pad-ext-config requires account_regex and (pad_account or pad_account_expenses and pad_account_income)",
          some d⟩
  else
    .error ⟨some d.meta, "account_regex is required in config entry", some d⟩

def isPadConfigEntry (d : Directive α) : Bool :=
  match d.payload with
  | .custom t _ => t = "pad-ext-config"
  | _ => false

/-- Source `get_directives_defined_config`: scan the `pad-ext-config` directives in
reverse declaration order, collecting parsed rules and diagnostics. -/
def get_directives_defined_config (entries : List (Directive α)) :
    List RegexToPadAccountMapping × List (PadError α) :=
  (entries.filter isPadConfigEntry).reverse.foldl
    (fun acc d =>
      match parseConfigEntry d with
      | .ok m => (acc.1 ++ [m], acc.2)
      | .error e => (acc.1, acc.2 ++ [e]))
    ([], [])

/-! ### The reconciliation walk (core state machine) -/

/-- The padding status flag `flags.FLAG_PADDING`. -/
def FLAG_PADDING : String := "P"

/-- One item of an account timeline as provided by the host realization:
either one posting of a transaction (`data.TxnPosting`, carrying the parent
transaction date) or a directive attributed to the account. -/
inductive TimelineItem (α : Type) where
  | txnPosting : (date : Date) → (posting : Posting α) → TimelineItem α
  | dir : Directive α → TimelineItem α
  deriving DecidableEq

/-- The mutable state of `pad_extended` while walking one account: the
per-account registers (`active_pad`, `padded_lots`, `pad_balance`) together
with the run-global accumulators (synthesized entries keyed by the producing
pad marker identity, diagnostics, resolution cache). -/
structure WalkState (α : Type) where
  active_pad : Option (Directive α)
  padded_lots : List Currency
  pad_balance : Inventory α
  new_entries : List (Nat × Directive α)
  pad_errors : List (PadError α)
  cache : Cache
  deriving DecidableEq

/-- Add a currency to the `padded_lots` set. -/
def markLot (lots : List Currency) (c : Currency) : List Currency :=
  if c ∈ lots then lots else lots ++ [c]

/-- Model of the auto-generated narration.  The exact decimal rendering of
the Python format call is abstracted; the narration remains a function of the
asserted amount and the difference position, as in the source. -/
def mkNarration (check : Amount α) (diff : Position α) : String :=
  "(Padding inserted for Balance of " ++ check.currency ++
    " for difference " ++ diff.units.currency ++ ")"

/-- The per-costed-lot diagnostics emitted before a correction is computed:
one error for every existing position in the asserted currency that carries a
cost basis. -/
def costErrorsFor (inv : Inventory α) (entryMeta : Meta) (active : Directive α)
    (c : Currency) : List (PadError α) :=
  ((inv.filter (fun p => p.units.currency = c)).filter
      (fun p => p.cost.isSome)).map
    (fun _ => ⟨some entryMeta,
      "Attempt to pad an entry with cost for balance", some active⟩)

/-- Handling of one `Balance` assertion inside the walk: compare the running
balance to the asserted amount under the tolerance, synthesize a correction
when a pad marker is active and the currency is not yet padded, and finally
mark the currency as encountered. -/
def processBalance (cfgList : List (Option RegexToPadAccountMapping))
    (tolFn : Directive α → α) (st : WalkState α) (entry : Directive α)
    (check_amount : Amount α) : Except String (WalkState α) :=
  let balance_number := currencyUnits st.pad_balance check_amount.currency
  let diff_number := balance_number - check_amount.number
  let tolerance := tolFn entry
  let afterFail : Except String (WalkState α) :=
    if |diff_number| > tolerance then
      match st.active_pad with
      | some active =>
        if check_amount.currency ∈ st.padded_lots then .ok st
        else
          let costErrs :=
            costErrorsFor st.pad_balance entry.meta active check_amount.currency
          let diff_position := Position.from_amounts
            ⟨check_amount.number - balance_number, check_amount.currency⟩
          let p1 : Posting α := ⟨some (get_padded_account active),
            diff_position.units, diff_position.cost, none, none, some entry.meta⟩
          match get_source_account active diff_position cfgList st.cache with
          | .error e => .error e
          | .ok (source_account, cache2) =>
            let negp := diff_position.neg
            let p2 : Posting α := ⟨source_account, negp.units, negp.cost,
              none, none, some entry.meta⟩
            let new_txn : Directive α := ⟨0, active.date, active.meta,
              .txn FLAG_PADDING (mkNarration check_amount diff_position) [p1, p2]⟩
            let added := addToLots st.pad_balance diff_position
            if (added.2.map Position.is_negative_at_cost).getD false then
              .error "Position held at cost goes negative"
            else
              .ok { st with
                pad_errors := st.pad_errors ++ costErrs,
                new_entries := st.new_entries ++ [(active.did, new_txn)],
                pad_balance := added.1,
                cache := cache2 }
      | none => .ok st
    else .ok st
  match afterFail with
  | .error e => .error e
  | .ok st2 =>
    .ok { st2 with padded_lots := markLot st2.padded_lots check_amount.currency }

/-- One step of the walk over a timeline item, mirroring the
`for entry in postings` dispatch of the source. -/
def walkStep (config : Config) (cfgList : List (Option RegexToPadAccountMapping))
    (tolFn : Directive α → α) (account_ : AccountName)
    (st : WalkState α) (item : TimelineItem α) : Except String (WalkState α) :=
  match item with
  | .txnPosting _ p =>
    .ok { st with pad_balance := (addToLots st.pad_balance ⟨p.units, p.cost⟩).1 }
  | .dir d =>
    if is_pad_entry d config then
      if get_padded_account d = account_ then
        .ok { st with active_pad := some d, padded_lots := [] }
      else .ok st
    else
      match d.payload with
      | .balance _ amt => processBalance cfgList tolFn st d amt
      | _ => .ok st

/-- The walk over an account timeline. -/
def walkEvents (config : Config) (cfgList : List (Option RegexToPadAccountMapping))
    (tolFn : Directive α → α) (account_ : AccountName) :
    WalkState α → List (TimelineItem α) → Except String (WalkState α)
  | st, [] => .ok st
  | st, item :: rest =>
    match walkStep config cfgList tolFn account_ st item with
    | .error e => .error e
    | .ok st2 => walkEvents config cfgList tolFn account_ st2 rest

/-! ### Timeline construction and insertion -/

/-- Modelled from the spec: the host realization service
`postings_by_account` (spec 4.1), which attributes each transaction posting
and each account-bearing directive (including account-typed values of custom
directives) to its account.  The service itself lives in the host library and
is out of scope; only its interface behaviour is modelled. -/
def itemsOf (d : Directive α) : List (AccountName × TimelineItem α) :=
  match d.payload with
  | .txn _ _ ps =>
    ps.filterMap (fun p => p.account.map (fun a => (a, TimelineItem.txnPosting d.date p)))
  | .pad a _ => [(a, TimelineItem.dir d)]
  | .balance a _ => [(a, TimelineItem.dir d)]
  | .openAcc a => [(a, TimelineItem.dir d)]
  | .custom _ vs =>
    vs.filterMap (fun v => match v with
      | .account a => some (a, TimelineItem.dir d)
      | _ => none)
  | .other => []

def pushItem (m : List (AccountName × List (TimelineItem α))) (a : AccountName)
    (it : TimelineItem α) : List (AccountName × List (TimelineItem α)) :=
  match m with
  | [] => [(a, [it])]
  | (k, l) :: rest =>
    if k = a then (k, l ++ [it]) :: rest else (k, l) :: pushItem rest a it

def postings_by_account (entries : List (Directive α)) :
    List (AccountName × List (TimelineItem α)) :=
  entries.foldl
    (fun m d => (itemsOf d).foldl (fun m2 ai => pushItem m2 ai.1 ai.2) m) []

/-- Source `account.parent_matcher(parent)`: the account itself or any account below
it in the colon-delimited hierarchy. -/
def isSubAccountOf (child parent : AccountName) : Bool :=
  child = parent || (parent.toList ++ [':']).isPrefixOf child.toList

/-- Modelled from the spec: the host sort key `data.posting_sortkey`
(spec 4.1): primarily the date, secondarily a type priority placing Open and
Balance directives before same-day transactions; the sort is stable, keeping
declaration order within ties. -/
def payloadTypeOrder : Payload α → Int
  | .openAcc _ => -2
  | .balance _ _ => -1
  | _ => 0

def itemSortKey : TimelineItem α → Date × Int
  | .txnPosting dt _ => (dt, 0)
  | .dir d => (d.date, payloadTypeOrder d.payload)

def keyLE (a b : Date × Int) : Bool :=
  a.1 < b.1 || (a.1 = b.1 && a.2 ≤ b.2)

/-- Stable sort by sort key (insertion formulation: each element is placed
after every already-placed element whose key is less than or equal, so
declaration order is kept within ties, as with the host stable sort). -/
def insertItem (x : TimelineItem α) : List (TimelineItem α) → List (TimelineItem α)
  | [] => [x]
  | y :: ys =>
    if keyLE (itemSortKey y) (itemSortKey x) then y :: insertItem x ys
    else x :: y :: ys

def sortTimeline (l : List (TimelineItem α)) : List (TimelineItem α) :=
  l.foldl (fun acc x => insertItem x acc) []

def accountTimeline (by_account : List (AccountName × List (TimelineItem α)))
    (account_ : AccountName) : List (TimelineItem α) :=
  sortTimeline
    ((by_account.filter (fun kv => isSubAccountOf kv.1 account_)).foldl
      (fun acc kv => acc ++ kv.2) [])

/-- First-encounter-order deduplication of the padded accounts. -/
def dedupAccounts (l : List AccountName) : List AccountName :=
  l.foldl (fun acc a => if a ∈ acc then acc else acc ++ [a]) []

def insertAccount (x : AccountName) : List AccountName → List AccountName
  | [] => [x]
  | y :: ys => if pyStrLE y x then y :: insertAccount x ys else x :: y :: ys

def sortedAccounts (pads : List (Directive α)) : List AccountName :=
  (dedupAccounts (pads.map get_padded_account)).foldl
    (fun acc a => insertAccount a acc) []

/-- The run-global accumulators threaded across per-account walks. -/
structure GlobalAcc (α : Type) where
  new_entries : List (Nat × Directive α)
  pad_errors : List (PadError α)
  cache : Cache
  deriving DecidableEq

def processAccount (config : Config)
    (cfgList : List (Option RegexToPadAccountMapping)) (tolFn : Directive α → α)
    (by_account : List (AccountName × List (TimelineItem α)))
    (g : GlobalAcc α) (account_ : AccountName) : Except String (GlobalAcc α) :=
  match walkEvents config cfgList tolFn account_
      ⟨none, [], [], g.new_entries, g.pad_errors, g.cache⟩
      (accountTimeline by_account account_) with
  | .error e => .error e
  | .ok st => .ok ⟨st.new_entries, st.pad_errors, st.cache⟩

/-- The synthesized transactions recorded against one pad marker identity. -/
def newEntriesFor (acc : List (Nat × Directive α)) (i : Nat) : List (Directive α) :=
  (acc.filter (fun e => e.1 = i)).map (fun e => e.2)

/-- The final insertion loop (source lines 352-368): every input directive is
appended first; a pad marker is then followed by its synthesized entries, and
a pad marker with none either gets an "Unused Pad entry" diagnostic or hits a
`continue` that, coming after the append, skips nothing. -/
def insertNewEntries (entries : List (Directive α)) (acc : List (Nat × Directive α))
    (config : Config) (errs0 : List (PadError α)) :
    List (Directive α) × List (PadError α) :=
  entries.foldl
    (fun r d =>
      let r1 := (r.1 ++ [d], r.2)
      if is_pad_entry d config then
        let lst := newEntriesFor acc d.did
        if lst.isEmpty then
          if config.generate_errors_on_unused_pad_entries then
            (r1.1, r1.2 ++ [⟨some d.meta, "Unused Pad entry", some d⟩])
          else r1
        else (r1.1 ++ lst, r1.2)
      else r1)
    ([], errs0)

/-- The plugin entry point.  `configInput` stands for the configuration
string: `none` when absent, `some (.error e)` when `ast.literal_eval` raised,
`some (.ok c)` for a parsed configuration.  `tolFn` stands for the host
tolerance-inference service `balance.get_balance_tolerance`.  `Except.error`
models an uncaught Python exception aborting the invocation. -/
def pad_extended (entries : List (Directive α)) (tolFn : Directive α → α)
    (configInput : Option (Except String Config)) :
    Except String (List (Directive α) × List (PadError α)) :=
  match configInput with
  | some (.error e) =>
    .ok (entries, [⟨none, "Invalid configuration string: " ++ e, none⟩])
  | _ =>
    let config : Config := match configInput with
      | some (.ok c) => c
      | _ => {}
    match (config.default_pad_account.getD
        DEFAULT_DEFAULT_PAD_ACCOUNT_CONFIG).reverse.mapM parse_pad_account_item with
    | .error e => .error e
    | .ok defaultCfg =>
      let dirCfg := get_directives_defined_config entries
      if dirCfg.2.isEmpty then
        let cfgList := (dirCfg.1.map some) ++ defaultCfg
        let pads := entries.filter (fun d => is_pad_entry d config)
        let by_account := postings_by_account entries
        match (sortedAccounts pads).foldlM
            (processAccount config cfgList tolFn by_account) ⟨[], [], []⟩ with
        | .error e => .error e
        | .ok g => .ok (insertNewEntries entries g.new_entries config g.pad_errors)
      else .ok (entries, dirCfg.2)

/-! ### Basic lemmas about the inventory -/

theorem currencyUnits_nil (c : Currency) : currencyUnits ([] : Inventory α) c = 0 :=
  rfl

theorem currencyUnits_cons (q : Position α) (rest : Inventory α) (c : Currency) :
    currencyUnits (q :: rest) c =
      (if q.units.currency = c then q.units.number else 0) + currencyUnits rest c := by
  simp [currencyUnits]

theorem addToLots_snd_cost (p : Position α) :
    ∀ (inv : Inventory α) (q : Position α), (addToLots inv p).2 = some q → q.cost = p.cost := by
  intro inv
  induction inv with
  | nil =>
    intro q h
    simp only [addToLots, Option.some.injEq] at h
    rw [← h]
  | cons r rest ih =>
    intro q h
    simp only [addToLots] at h
    split at h
    · split at h
      · simp at h
      · simp only [Option.some.injEq] at h
        rw [← h]
    · exact ih q h

theorem addToLots_negAtCost_false (inv : Inventory α) (u : Amount α) :
    (((addToLots inv (Position.from_amounts u)).2.map Position.is_negative_at_cost).getD
      false) = false := by
  cases hsnd : (addToLots inv (Position.from_amounts u)).2 with
  | none => rfl
  | some q =>
    have hq := addToLots_snd_cost (Position.from_amounts u) inv q hsnd
    simp [Position.is_negative_at_cost, hq, Position.from_amounts]

theorem currencyUnits_addToLots (inv : Inventory α) (p : Position α) (c : Currency) :
    currencyUnits (addToLots inv p).1 c =
      currencyUnits inv c + (if p.units.currency = c then p.units.number else 0) := by
  induction inv with
  | nil =>
    simp [addToLots, currencyUnits]
  | cons q rest ih =>
    simp only [addToLots]
    split
    case isTrue hkey =>
      split
      case isTrue hzero =>
        rw [currencyUnits_cons, hkey.1]
        by_cases hc : p.units.currency = c
        · rw [if_pos hc, if_pos hc]
          have h2 : q.units.number + currencyUnits rest c + p.units.number
              = q.units.number + p.units.number + currencyUnits rest c := by abel
          rw [h2, hzero, zero_add]
        · rw [if_neg hc, if_neg hc, zero_add, add_zero]
      case isFalse hnz =>
        rw [currencyUnits_cons, currencyUnits_cons, hkey.1]
        by_cases hc : p.units.currency = c
        · rw [if_pos hc, if_pos hc, if_pos hc]
          abel
        · rw [if_neg hc, if_neg hc, if_neg hc]
          abel
    case isFalse hkey =>
      rw [currencyUnits_cons, currencyUnits_cons, ih]
      abel

theorem mem_markLot (lots : List Currency) (c : Currency) : c ∈ markLot lots c := by
  by_cases h : c ∈ lots
  · simp [markLot, h]
  · simp [markLot, h]

theorem mem_markLot_of_mem (lots : List Currency) (c c2 : Currency) (h : c ∈ lots) :
    c ∈ markLot lots c2 := by
  by_cases h2 : c2 ∈ lots
  · simpa [markLot, h2]
  · simp [markLot, h2, List.mem_append, h]

/-! ### Observations used by the invariants -/

/-- A timeline item that activates a pad marker for the walked account. -/
def activates (config : Config) (account_ : AccountName) : TimelineItem α → Bool
  | .dir d => is_pad_entry d config && decide (get_padded_account d = account_)
  | .txnPosting _ _ => false

/-- The currency of a synthesized transaction (the currency of its first
posting). -/
def synthCurrency (d : Directive α) : Option Currency :=
  match d.payload with
  | .txn _ _ (p :: _) => some p.units.currency
  | _ => none

/-- A transaction with exactly two postings, in one currency, whose unit
amounts sum to zero. -/
def twoBalancedPostings (d : Directive α) : Prop :=
  ∃ f n p1 p2, d.payload = .txn f n [p1, p2] ∧
    p1.units.currency = p2.units.currency ∧
    p1.units.number + p2.units.number = 0

/-- The number of synthesized transactions for a currency. -/
def countSynthFor (c : Currency) (l : List (Nat × Directive α)) : Nat :=
  (l.filter (fun e => synthCurrency e.2 = some c)).length

theorem countSynthFor_append (c : Currency) (l1 l2 : List (Nat × Directive α)) :
    countSynthFor c (l1 ++ l2) = countSynthFor c l1 + countSynthFor c l2 := by
  simp [countSynthFor, List.filter_append]

/-! ### Characterization of the balance-assertion step -/

theorem processBalance_pass (cfgList : List (Option RegexToPadAccountMapping))
    (tolFn : Directive α → α) (st : WalkState α) (entry : Directive α)
    (check : Amount α)
    (hpass : ¬ |currencyUnits st.pad_balance check.currency - check.number| > tolFn entry) :
    processBalance cfgList tolFn st entry check =
      .ok { st with padded_lots := markLot st.padded_lots check.currency } := by
  simp only [processBalance]
  rw [if_neg hpass]

theorem processBalance_noActive (cfgList : List (Option RegexToPadAccountMapping))
    (tolFn : Directive α → α) (st : WalkState α) (entry : Directive α)
    (check : Amount α)
    (hactive : st.active_pad = none)
    (hfail : |currencyUnits st.pad_balance check.currency - check.number| > tolFn entry) :
    processBalance cfgList tolFn st entry check =
      .ok { st with padded_lots := markLot st.padded_lots check.currency } := by
  simp only [processBalance]
  rw [if_pos hfail]
  conv_lhs => rw [hactive]

theorem processBalance_already (cfgList : List (Option RegexToPadAccountMapping))
    (tolFn : Directive α → α) (st : WalkState α) (entry : Directive α)
    (check : Amount α) (active : Directive α)
    (hactive : st.active_pad = some active)
    (hmem : check.currency ∈ st.padded_lots)
    (hfail : |currencyUnits st.pad_balance check.currency - check.number| > tolFn entry) :
    processBalance cfgList tolFn st entry check =
      .ok { st with padded_lots := markLot st.padded_lots check.currency } := by
  simp only [processBalance]
  rw [if_pos hfail]
  conv_lhs => rw [hactive]
  simp only [if_pos hmem]

theorem processBalance_synth (cfgList : List (Option RegexToPadAccountMapping))
    (tolFn : Directive α → α) (st : WalkState α) (entry : Directive α)
    (check : Amount α) (active : Directive α) (sa : Option String) (cache2 : Cache)
    (hactive : st.active_pad = some active)
    (hfail : |currencyUnits st.pad_balance check.currency - check.number| > tolFn entry)
    (hnot : check.currency ∉ st.padded_lots)
    (hsrc : get_source_account active
        (Position.from_amounts
          ⟨check.number - currencyUnits st.pad_balance check.currency, check.currency⟩)
        cfgList st.cache = .ok (sa, cache2)) :
    processBalance cfgList tolFn st entry check = .ok
      { active_pad := st.active_pad
        padded_lots := markLot st.padded_lots check.currency
        pad_balance := (addToLots st.pad_balance (Position.from_amounts
          ⟨check.number - currencyUnits st.pad_balance check.currency, check.currency⟩)).1
        new_entries := st.new_entries ++ [(active.did, ⟨0, active.date, active.meta,
          .txn FLAG_PADDING
            (mkNarration check (Position.from_amounts
              ⟨check.number - currencyUnits st.pad_balance check.currency, check.currency⟩))
            [⟨some (get_padded_account active),
              ⟨check.number - currencyUnits st.pad_balance check.currency, check.currency⟩,
              none, none, none, some entry.meta⟩,
             ⟨sa, ⟨-(check.number - currencyUnits st.pad_balance check.currency), check.currency⟩,
              none, none, none, some entry.meta⟩]⟩)]
        pad_errors := st.pad_errors ++
          costErrorsFor st.pad_balance entry.meta active check.currency
        cache := cache2 } := by
  simp only [processBalance]
  rw [if_pos hfail]
  conv_lhs => rw [hactive]
  simp only [if_neg hnot]
  rw [hsrc]
  rw [addToLots_negAtCost_false]
  simp [Position.from_amounts, Position.neg]
  exact hactive.symm

theorem processBalance_srcError (cfgList : List (Option RegexToPadAccountMapping))
    (tolFn : Directive α → α) (st : WalkState α) (entry : Directive α)
    (check : Amount α) (active : Directive α) (e : String)
    (hactive : st.active_pad = some active)
    (hfail : |currencyUnits st.pad_balance check.currency - check.number| > tolFn entry)
    (hnot : check.currency ∉ st.padded_lots)
    (hsrc : get_source_account active
        (Position.from_amounts
          ⟨check.number - currencyUnits st.pad_balance check.currency, check.currency⟩)
        cfgList st.cache = .error e) :
    processBalance cfgList tolFn st entry check = .error e := by
  simp only [processBalance]
  rw [if_pos hfail]
  conv_lhs => rw [hactive]
  simp only [if_neg hnot]
  rw [hsrc]

/-- Exhaustive shape of a successful balance-assertion step: the currency is
always marked, the active pad is untouched, and the synthesized-entry list
either stays or grows by exactly one padding transaction for a currency that
was not yet marked. -/
theorem processBalance_shape (cfgList : List (Option RegexToPadAccountMapping))
    (tolFn : Directive α → α) (st : WalkState α) (entry : Directive α)
    (check : Amount α) (st2 : WalkState α)
    (h : processBalance cfgList tolFn st entry check = .ok st2) :
    st2.padded_lots = markLot st.padded_lots check.currency ∧
    st2.active_pad = st.active_pad ∧
    (st2.new_entries = st.new_entries ∨
      (check.currency ∉ st.padded_lots ∧
        ∃ active q sa, st.active_pad = some active ∧
          st2.new_entries = st.new_entries ++ [(active.did, ⟨0, active.date, active.meta,
            .txn FLAG_PADDING (mkNarration check (Position.from_amounts ⟨q, check.currency⟩))
              [⟨some (get_padded_account active), ⟨q, check.currency⟩,
                none, none, none, some entry.meta⟩,
               ⟨sa, ⟨-q, check.currency⟩, none, none, none, some entry.meta⟩]⟩)])) := by
  by_cases hfail : |currencyUnits st.pad_balance check.currency - check.number| > tolFn entry
  · cases hap : st.active_pad with
    | none =>
      rw [processBalance_noActive cfgList tolFn st entry check hap hfail] at h
      simp only [Except.ok.injEq] at h
      rw [← h]
      exact ⟨rfl, hap, Or.inl rfl⟩
    | some active =>
      by_cases hmem : check.currency ∈ st.padded_lots
      · rw [processBalance_already cfgList tolFn st entry check active hap hmem hfail] at h
        simp only [Except.ok.injEq] at h
        rw [← h]
        exact ⟨rfl, hap, Or.inl rfl⟩
      · cases hga : get_source_account active
            (Position.from_amounts
              ⟨check.number - currencyUnits st.pad_balance check.currency, check.currency⟩)
            cfgList st.cache with
        | error e =>
          rw [processBalance_srcError cfgList tolFn st entry check active e
            hap hfail hmem hga] at h
          simp at h
        | ok pair =>
          obtain ⟨sa, cache2⟩ := pair
          rw [processBalance_synth cfgList tolFn st entry check active sa cache2
            hap hfail hmem hga] at h
          simp only [Except.ok.injEq] at h
          rw [← h]
          exact ⟨rfl, hap, Or.inr ⟨hmem, active,
            check.number - currencyUnits st.pad_balance check.currency, sa, rfl, rfl⟩⟩
  · rw [processBalance_pass cfgList tolFn st entry check hfail] at h
    simp only [Except.ok.injEq] at h
    rw [← h]
    exact ⟨rfl, rfl, Or.inl rfl⟩

/-! ### Characterization of the walk step -/

theorem walkStep_txnPosting (config : Config)
    (cfgList : List (Option RegexToPadAccountMapping)) (tolFn : Directive α → α)
    (account_ : AccountName) (st : WalkState α) (dt : Date) (p : Posting α) :
    walkStep config cfgList tolFn account_ st (.txnPosting dt p) =
      .ok { st with pad_balance := (addToLots st.pad_balance ⟨p.units, p.cost⟩).1 } :=
  rfl

theorem walkStep_activate (config : Config)
    (cfgList : List (Option RegexToPadAccountMapping)) (tolFn : Directive α → α)
    (account_ : AccountName) (st : WalkState α) (d : Directive α)
    (hpad : is_pad_entry d config = true)
    (hacct : get_padded_account d = account_) :
    walkStep config cfgList tolFn account_ st (.dir d) =
      .ok { st with active_pad := some d, padded_lots := [] } := by
  simp [walkStep, hpad, hacct]

theorem walkStep_pad_other (config : Config)
    (cfgList : List (Option RegexToPadAccountMapping)) (tolFn : Directive α → α)
    (account_ : AccountName) (st : WalkState α) (d : Directive α)
    (hpad : is_pad_entry d config = true)
    (hacct : get_padded_account d ≠ account_) :
    walkStep config cfgList tolFn account_ st (.dir d) = .ok st := by
  simp [walkStep, hpad, hacct]

theorem walkStep_balance (config : Config)
    (cfgList : List (Option RegexToPadAccountMapping)) (tolFn : Directive α → α)
    (account_ : AccountName) (st : WalkState α) (d : Directive α)
    (ba : AccountName) (chk : Amount α)
    (hpayload : d.payload = .balance ba chk) :
    walkStep config cfgList tolFn account_ st (.dir d) =
      processBalance cfgList tolFn st d chk := by
  have hpe : is_pad_entry d config = false := by
    simp [is_pad_entry, hpayload]
  simp only [walkStep, hpe, Bool.false_eq_true, if_false, hpayload]

theorem walkStep_other (config : Config)
    (cfgList : List (Option RegexToPadAccountMapping)) (tolFn : Directive α → α)
    (account_ : AccountName) (st : WalkState α) (d : Directive α)
    (hpe : is_pad_entry d config = false)
    (hnb : ∀ ba chk, d.payload ≠ Payload.balance ba chk) :
    walkStep config cfgList tolFn account_ st (.dir d) = .ok st := by
  cases hp : d.payload with
  | balance ba chk => exact absurd hp (hnb ba chk)
  | txn f n ps => simp [walkStep, hpe, hp]
  | pad a s => simp [walkStep, hpe, hp]
  | custom t vs => simp [walkStep, hpe, hp]
  | openAcc a => simp [walkStep, hpe, hp]
  | other => simp [walkStep, hpe, hp]

/-- Any successful step grows the synthesized-entry list by at most one
entry, and any appended entry is a balanced two-posting transaction. -/
theorem walkStep_entries (config : Config)
    (cfgList : List (Option RegexToPadAccountMapping)) (tolFn : Directive α → α)
    (account_ : AccountName) (st : WalkState α) (it : TimelineItem α)
    (st2 : WalkState α)
    (h : walkStep config cfgList tolFn account_ st it = .ok st2) :
    st2.new_entries = st.new_entries ∨
      ∃ pr, st2.new_entries = st.new_entries ++ [pr] ∧ twoBalancedPostings pr.2 := by
  cases it with
  | txnPosting dt p =>
    rw [walkStep_txnPosting] at h
    simp only [Except.ok.injEq] at h
    rw [← h]
    exact Or.inl rfl
  | dir d =>
    by_cases hpe : is_pad_entry d config
    · by_cases hacct : get_padded_account d = account_
      · rw [walkStep_activate config cfgList tolFn account_ st d hpe hacct] at h
        simp only [Except.ok.injEq] at h
        rw [← h]
        exact Or.inl rfl
      · rw [walkStep_pad_other config cfgList tolFn account_ st d hpe hacct] at h
        simp only [Except.ok.injEq] at h
        rw [← h]
        exact Or.inl rfl
    · cases hp : d.payload with
      | balance ba chk =>
        rw [walkStep_balance config cfgList tolFn account_ st d ba chk hp] at h
        obtain ⟨_, _, hent⟩ := processBalance_shape cfgList tolFn st d chk st2 h
        cases hent with
        | inl he => exact Or.inl he
        | inr he =>
          obtain ⟨_, active, q, sa, _, hne⟩ := he
          exact Or.inr ⟨_, hne, FLAG_PADDING, _, _, _, rfl, rfl, by simp⟩
      | txn f n ps =>
        rw [walkStep_other config cfgList tolFn account_ st d
          (by simpa using hpe) (by simp [hp])] at h
        simp only [Except.ok.injEq] at h
        rw [← h]
        exact Or.inl rfl
      | pad a s =>
        rw [walkStep_other config cfgList tolFn account_ st d
          (by simpa using hpe) (by simp [hp])] at h
        simp only [Except.ok.injEq] at h
        rw [← h]
        exact Or.inl rfl
      | custom t vs =>
        rw [walkStep_other config cfgList tolFn account_ st d
          (by simpa using hpe) (by simp [hp])] at h
        simp only [Except.ok.injEq] at h
        rw [← h]
        exact Or.inl rfl
      | openAcc a =>
        rw [walkStep_other config cfgList tolFn account_ st d
          (by simpa using hpe) (by simp [hp])] at h
        simp only [Except.ok.injEq] at h
        rw [← h]
        exact Or.inl rfl
      | other =>
        rw [walkStep_other config cfgList tolFn account_ st d
          (by simpa using hpe) (by simp [hp])] at h
        simp only [Except.ok.injEq] at h
        rw [← h]
        exact Or.inl rfl

/-- One successful non-activation step: `padded_lots` only grows, the active
pad is unchanged, and the synthesized entries grow by at most one entry, for
a freshly marked currency, as a balanced two-posting padding transaction. -/
theorem walkStep_shape (config : Config)
    (cfgList : List (Option RegexToPadAccountMapping)) (tolFn : Directive α → α)
    (account_ : AccountName) (st : WalkState α) (it : TimelineItem α)
    (st2 : WalkState α)
    (hna : activates config account_ it = false)
    (h : walkStep config cfgList tolFn account_ st it = .ok st2) :
    (∀ c, c ∈ st.padded_lots → c ∈ st2.padded_lots) ∧
    st2.active_pad = st.active_pad ∧
    (st2.new_entries = st.new_entries ∨
      ∃ c pr, c ∉ st.padded_lots ∧ c ∈ st2.padded_lots ∧
        st2.new_entries = st.new_entries ++ [pr] ∧
        synthCurrency pr.2 = some c ∧ twoBalancedPostings pr.2) := by
  cases it with
  | txnPosting dt p =>
    rw [walkStep_txnPosting] at h
    simp only [Except.ok.injEq] at h
    rw [← h]
    exact ⟨fun c hc => hc, rfl, Or.inl rfl⟩
  | dir d =>
    by_cases hpe : is_pad_entry d config
    · have hacct : get_padded_account d ≠ account_ := by
        intro hc
        rw [activates] at hna
        simp [hpe, hc] at hna
      rw [walkStep_pad_other config cfgList tolFn account_ st d hpe hacct] at h
      simp only [Except.ok.injEq] at h
      rw [← h]
      exact ⟨fun c hc => hc, rfl, Or.inl rfl⟩
    · cases hp : d.payload with
      | balance ba chk =>
        rw [walkStep_balance config cfgList tolFn account_ st d ba chk hp] at h
        obtain ⟨hlots, hap, hent⟩ := processBalance_shape cfgList tolFn st d chk st2 h
        refine ⟨?_, hap, ?_⟩
        · intro c hc
          rw [hlots]
          exact mem_markLot_of_mem st.padded_lots c chk.currency hc
        · cases hent with
          | inl he => exact Or.inl he
          | inr he =>
            obtain ⟨hmem, active, q, sa, hact, hne⟩ := he
            refine Or.inr ⟨chk.currency, _, hmem, ?_, hne, ?_, ?_⟩
            · rw [hlots]
              exact mem_markLot st.padded_lots chk.currency
            · simp [synthCurrency]
            · exact ⟨FLAG_PADDING, _, _, _, rfl, rfl, by simp⟩
      | txn f n ps =>
        rw [walkStep_other config cfgList tolFn account_ st d
          (by simpa using hpe) (by simp [hp])] at h
        simp only [Except.ok.injEq] at h
        rw [← h]
        exact ⟨fun c hc => hc, rfl, Or.inl rfl⟩
      | pad a s =>
        rw [walkStep_other config cfgList tolFn account_ st d
          (by simpa using hpe) (by simp [hp])] at h
        simp only [Except.ok.injEq] at h
        rw [← h]
        exact ⟨fun c hc => hc, rfl, Or.inl rfl⟩
      | custom t vs =>
        rw [walkStep_other config cfgList tolFn account_ st d
          (by simpa using hpe) (by simp [hp])] at h
        simp only [Except.ok.injEq] at h
        rw [← h]
        exact ⟨fun c hc => hc, rfl, Or.inl rfl⟩
      | openAcc a =>
        rw [walkStep_other config cfgList tolFn account_ st d
          (by simpa using hpe) (by simp [hp])] at h
        simp only [Except.ok.injEq] at h
        rw [← h]
        exact ⟨fun c hc => hc, rfl, Or.inl rfl⟩
      | other =>
        rw [walkStep_other config cfgList tolFn account_ st d
          (by simpa using hpe) (by simp [hp])] at h
        simp only [Except.ok.injEq] at h
        rw [← h]
        exact ⟨fun c hc => hc, rfl, Or.inl rfl⟩

/-! ### Walk-level invariants -/

theorem countSynthFor_singleton_le (c : Currency) (x : Nat × Directive α) :
    countSynthFor c [x] ≤ 1 := by
  simp only [countSynthFor]
  cases hd : decide (synthCurrency x.2 = some c) <;> simp [List.filter, hd]

/-- Once a currency is marked as padded, an activation-free stretch of the
walk synthesizes nothing further for it, and the mark survives. -/
theorem walkEvents_marked (config : Config)
    (cfgList : List (Option RegexToPadAccountMapping)) (tolFn : Directive α → α)
    (account_ : AccountName) (C : Currency) :
    ∀ (evs : List (TimelineItem α)) (st st2 : WalkState α),
      (∀ it ∈ evs, activates config account_ it = false) →
      C ∈ st.padded_lots →
      walkEvents config cfgList tolFn account_ st evs = .ok st2 →
      countSynthFor C st2.new_entries = countSynthFor C st.new_entries ∧
        C ∈ st2.padded_lots := by
  intro evs
  induction evs with
  | nil =>
    intro st st2 _ hC h
    simp only [walkEvents, Except.ok.injEq] at h
    rw [← h]
    exact ⟨rfl, hC⟩
  | cons it rest ih =>
    intro st st2 hna hC h
    simp only [walkEvents] at h
    cases hstep : walkStep config cfgList tolFn account_ st it with
    | error e => rw [hstep] at h; simp at h
    | ok st1 =>
      rw [hstep] at h
      obtain ⟨hmono, _, hent⟩ := walkStep_shape config cfgList tolFn account_
        st it st1 (hna it (by simp)) hstep
      have hC1 : C ∈ st1.padded_lots := hmono C hC
      have hrest := ih st1 st2 (fun x hx => hna x (by simp [hx])) hC1 h
      refine ⟨?_, hrest.2⟩
      rw [hrest.1]
      cases hent with
      | inl he => rw [he]
      | inr he =>
        obtain ⟨c, pr, hcnot, _, hne, hsc, _⟩ := he
        have hcc : ¬ (synthCurrency pr.2 = some C) := by
          rw [hsc]
          intro hq
          simp only [Option.some.injEq] at hq
          exact hcnot (hq ▸ hC)
        rw [hne, countSynthFor_append]
        simp [countSynthFor, List.filter, hcc]

/-- An activation-free stretch of the walk starting with a currency unmarked
synthesizes at most one transaction for that currency. -/
theorem walkEvents_at_most_one (config : Config)
    (cfgList : List (Option RegexToPadAccountMapping)) (tolFn : Directive α → α)
    (account_ : AccountName) (C : Currency) :
    ∀ (evs : List (TimelineItem α)) (st st2 : WalkState α),
      (∀ it ∈ evs, activates config account_ it = false) →
      C ∉ st.padded_lots →
      walkEvents config cfgList tolFn account_ st evs = .ok st2 →
      countSynthFor C st2.new_entries ≤ countSynthFor C st.new_entries + 1 := by
  intro evs
  induction evs with
  | nil =>
    intro st st2 _ _ h
    simp only [walkEvents, Except.ok.injEq] at h
    rw [← h]
    exact Nat.le_succ _
  | cons it rest ih =>
    intro st st2 hna hC h
    simp only [walkEvents] at h
    cases hstep : walkStep config cfgList tolFn account_ st it with
    | error e => rw [hstep] at h; simp at h
    | ok st1 =>
      rw [hstep] at h
      obtain ⟨hmono, _, hent⟩ := walkStep_shape config cfgList tolFn account_
        st it st1 (hna it (by simp)) hstep
      have hstep_le : countSynthFor C st1.new_entries ≤ countSynthFor C st.new_entries + 1 := by
        cases hent with
        | inl he => rw [he]; exact Nat.le_succ _
        | inr he =>
          obtain ⟨c, pr, _, _, hne, _, _⟩ := he
          rw [hne, countSynthFor_append]
          have := countSynthFor_singleton_le C pr
          omega
      by_cases hC1 : C ∈ st1.padded_lots
      · have hmarked := walkEvents_marked config cfgList tolFn account_ C rest st1 st2
          (fun x hx => hna x (by simp [hx])) hC1 h
        rw [hmarked.1]
        exact hstep_le
      · have hstep_eq : countSynthFor C st1.new_entries = countSynthFor C st.new_entries := by
          cases hent with
          | inl he => rw [he]
          | inr he =>
            obtain ⟨c, pr, _, hcin, hne, hsc, _⟩ := he
            have hcc : ¬ (synthCurrency pr.2 = some C) := by
              rw [hsc]
              intro hq
              simp only [Option.some.injEq] at hq
              exact hC1 (hq ▸ hcin)
            rw [hne, countSynthFor_append]
            simp [countSynthFor, List.filter, hcc]
        have hrest := ih st1 st2 (fun x hx => hna x (by simp [hx])) hC1 h
        omega

/-- Every synthesized entry accumulated by a successful walk is a balanced
two-posting transaction, provided the entries already accumulated are. -/
theorem walkEvents_balanced (config : Config)
    (cfgList : List (Option RegexToPadAccountMapping)) (tolFn : Directive α → α)
    (account_ : AccountName) :
    ∀ (evs : List (TimelineItem α)) (st st2 : WalkState α),
      walkEvents config cfgList tolFn account_ st evs = .ok st2 →
      (∀ e ∈ st.new_entries, twoBalancedPostings e.2) →
      ∀ e ∈ st2.new_entries, twoBalancedPostings e.2 := by
  intro evs
  induction evs with
  | nil =>
    intro st st2 h hinit
    simp only [walkEvents, Except.ok.injEq] at h
    rw [← h]
    exact hinit
  | cons it rest ih =>
    intro st st2 h hinit
    simp only [walkEvents] at h
    cases hstep : walkStep config cfgList tolFn account_ st it with
    | error e => rw [hstep] at h; simp at h
    | ok st1 =>
      rw [hstep] at h
      refine ih st1 st2 h ?_
      cases walkStep_entries config cfgList tolFn account_ st it st1 hstep with
      | inl he =>
        rw [he]
        exact hinit
      | inr he =>
        obtain ⟨pr, hne, hbal⟩ := he
        rw [hne]
        intro e he2
        rcases List.mem_append.mp he2 with h1 | h2
        · exact hinit e h1
        · rw [List.mem_singleton.mp h2]
          exact hbal

/-! ### Claim C1 -/

/-- C1: when a Balance assertion of amount `A` in currency `C` fails beyond
tolerance while a pad marker is active and `C` is not yet marked for that
activation, the step synthesizes exactly one transaction, dated at the active
pad marker date (not the assertion date), carrying the padding status flag,
with exactly two cost-free postings of amount `A - inventory[C]` on the
padded account and its negation on the resolved source account; immediately
afterwards the running inventory holds exactly `A` in `C`, so subsequent
events of the walk see the corrected balance. -/
theorem C1_synthesizes_correction (config : Config)
    (cfgList : List (Option RegexToPadAccountMapping)) (tolFn : Directive α → α)
    (account_ : AccountName) (st : WalkState α) (entry active : Directive α)
    (ba : AccountName) (check : Amount α) (sa : Option String) (cache2 : Cache)
    (hpayload : entry.payload = .balance ba check)
    (hactive : st.active_pad = some active)
    (hfail : |currencyUnits st.pad_balance check.currency - check.number| > tolFn entry)
    (hnot : check.currency ∉ st.padded_lots)
    (hsrc : get_source_account active
        (Position.from_amounts
          ⟨check.number - currencyUnits st.pad_balance check.currency, check.currency⟩)
        cfgList st.cache = .ok (sa, cache2)) :
    ∃ st2, walkStep config cfgList tolFn account_ st (.dir entry) = .ok st2 ∧
      st2.new_entries = st.new_entries ++ [(active.did, ⟨0, active.date, active.meta,
        .txn FLAG_PADDING
          (mkNarration check (Position.from_amounts
            ⟨check.number - currencyUnits st.pad_balance check.currency, check.currency⟩))
          [⟨some (get_padded_account active),
            ⟨check.number - currencyUnits st.pad_balance check.currency, check.currency⟩,
            none, none, none, some entry.meta⟩,
           ⟨sa, ⟨-(check.number - currencyUnits st.pad_balance check.currency), check.currency⟩,
            none, none, none, some entry.meta⟩]⟩)] ∧
      currencyUnits st2.pad_balance check.currency = check.number := by
  rw [walkStep_balance config cfgList tolFn account_ st entry ba check hpayload,
    processBalance_synth cfgList tolFn st entry check active sa cache2
      hactive hfail hnot hsrc]
  refine ⟨_, rfl, rfl, ?_⟩
  show currencyUnits (addToLots st.pad_balance (Position.from_amounts
    ⟨check.number - currencyUnits st.pad_balance check.currency, check.currency⟩)).1
    check.currency = check.number
  rw [currencyUnits_addToLots]
  simp [Position.from_amounts]

/-! ### Concrete inputs for witnesses -/

def wAccount : AccountName := "Assets:Cash"

/-- The parsed form of the built-in default pad-account table. -/
def wParsedDefault : List (Option RegexToPadAccountMapping) :=
  [some ⟨⟨[⟨.dot, true⟩], true⟩, none, some "Income:Unattributed:{name}",
    some "Expenses:Unattributed:{name}"⟩]

def wTxn : Directive ℤ :=
  ⟨1, 1, {}, .txn "*" "seed" [⟨some wAccount, ⟨100, "USD"⟩, none, none, none, none⟩]⟩

def wPad : Directive ℤ := ⟨2, 2, {}, .custom "pad-ext" [.account wAccount]⟩

def wBal : Directive ℤ := ⟨3, 3, {}, .balance wAccount ⟨150, "USD"⟩⟩

def wBal2 : Directive ℤ := ⟨4, 4, {}, .balance wAccount ⟨200, "USD"⟩⟩

def wSt : WalkState ℤ := ⟨some wPad, [], [], [], [], []⟩

def wTol : Directive ℤ → ℤ := fun _ => 0

/-- The transaction synthesized for `wBal` from an empty inventory. -/
def wSynthTxn : Directive ℤ := ⟨0, 2, {},
  .txn "P" "(Padding inserted for Balance of USD for difference USD)"
    [⟨some "Assets:Cash", ⟨150, "USD"⟩, none, none, none, some {}⟩,
     ⟨some "Expenses:Unattributed:Cash", ⟨-150, "USD"⟩, none, none, none, some {}⟩]⟩

/-- The walk state after `wSt` has processed `wBal` (and any further
assertions in the same currency under the same activation). -/
def wStAfter : WalkState ℤ := ⟨some wPad, ["USD"], [⟨⟨150, "USD"⟩, none⟩],
  [(2, wSynthTxn)], [], [((wAccount, 1), "Expenses:Unattributed:Cash")]⟩

/-- Witness for C1: the day-3 assertion of 150 USD over an empty inventory
yields one padding transaction dated day 2 and the corrected inventory. -/
theorem C1_witness :
    ∃ st2, walkStep {} wParsedDefault wTol wAccount wSt (.dir wBal) = .ok st2 ∧
      st2.new_entries = wSt.new_entries ++ [(wPad.did, ⟨0, wPad.date, wPad.meta,
        .txn FLAG_PADDING
          (mkNarration (⟨150, "USD"⟩ : Amount ℤ) (Position.from_amounts
            ⟨150 - currencyUnits wSt.pad_balance "USD", "USD"⟩))
          [⟨some (get_padded_account wPad),
            ⟨150 - currencyUnits wSt.pad_balance "USD", "USD"⟩,
            none, none, none, some wBal.meta⟩,
           ⟨some "Expenses:Unattributed:Cash",
            ⟨-(150 - currencyUnits wSt.pad_balance "USD"), "USD"⟩,
            none, none, none, some wBal.meta⟩]⟩)] ∧
      currencyUnits st2.pad_balance "USD" = 150 :=
  C1_synthesizes_correction {} wParsedDefault wTol wAccount wSt wBal wPad wAccount
    ⟨150, "USD"⟩ (some "Expenses:Unattributed:Cash")
    [((wAccount, 1), "Expenses:Unattributed:Cash")]
    rfl rfl (by decide) (by decide) (by decide)

/-! ### Claim C2 -/

/-- C2: at most one adjusting transaction is synthesized per pad activation
and currency: (i) a pad-activation event for the walked account clears the
mark set; (ii) every successful Balance-assertion step marks the asserted
currency, passing or failing, corrected or not; (iii) along any
activation-free stretch of the walk started with a cleared mark set, the
number of synthesized transactions for any fixed currency grows by at most
one. -/
theorem C2_at_most_one_correction (config : Config)
    (cfgList : List (Option RegexToPadAccountMapping)) (tolFn : Directive α → α)
    (account_ : AccountName) (C : Currency) :
    (∀ (st st2 : WalkState α) (d : Directive α),
      is_pad_entry d config = true → get_padded_account d = account_ →
      walkStep config cfgList tolFn account_ st (.dir d) = .ok st2 →
      st2.padded_lots = []) ∧
    (∀ (st st2 : WalkState α) (entry : Directive α) (ba : AccountName) (chk : Amount α),
      entry.payload = .balance ba chk →
      walkStep config cfgList tolFn account_ st (.dir entry) = .ok st2 →
      chk.currency ∈ st2.padded_lots) ∧
    (∀ (evs : List (TimelineItem α)) (st st2 : WalkState α),
      (∀ it ∈ evs, activates config account_ it = false) →
      st.padded_lots = [] →
      walkEvents config cfgList tolFn account_ st evs = .ok st2 →
      countSynthFor C st2.new_entries ≤ countSynthFor C st.new_entries + 1) := by
  refine ⟨?_, ?_, ?_⟩
  · intro st st2 d hpad hacct h
    rw [walkStep_activate config cfgList tolFn account_ st d hpad hacct] at h
    simp only [Except.ok.injEq] at h
    rw [← h]
  · intro st st2 entry ba chk hpayload h
    rw [walkStep_balance config cfgList tolFn account_ st entry ba chk hpayload] at h
    obtain ⟨hlots, _, _⟩ := processBalance_shape cfgList tolFn st entry chk st2 h
    rw [hlots]
    exact mem_markLot st.padded_lots chk.currency
  · intro evs st st2 hna hclear h
    refine walkEvents_at_most_one config cfgList tolFn account_ C evs st st2 hna ?_ h
    rw [hclear]
    simp

/-- Witness for C2: activation clears the mark set; a passing assertion
marks its currency; two failing assertions for the same currency under one
activation yield at most one synthesized transaction. -/
theorem C2_witness :
    (⟨some wPad, [], [], [], [], []⟩ : WalkState ℤ).padded_lots = [] ∧
    "USD" ∈ (⟨some wPad, ["USD"], [], [], [], []⟩ : WalkState ℤ).padded_lots ∧
    countSynthFor "USD" wStAfter.new_entries ≤ countSynthFor "USD" wSt.new_entries + 1 :=
  ⟨(C2_at_most_one_correction {} wParsedDefault wTol wAccount "USD").1
      ⟨none, ["EUR"], [], [], [], []⟩ ⟨some wPad, [], [], [], [], []⟩ wPad
      (by decide) (by decide) (by decide),
   (C2_at_most_one_correction {} wParsedDefault wTol wAccount "USD").2.1
      ⟨some wPad, [], [], [], [], []⟩ ⟨some wPad, ["USD"], [], [], [], []⟩
      ⟨5, 3, {}, .balance wAccount ⟨0, "USD"⟩⟩ wAccount ⟨0, "USD"⟩
      rfl (by decide),
   (C2_at_most_one_correction {} wParsedDefault wTol wAccount "USD").2.2
      [.dir wBal, .dir wBal2] wSt wStAfter (by decide) rfl (by decide)⟩

/-! ### Claim C3 -/

/-- C3: every synthesized adjusting transaction accumulated by a successful
walk has exactly two postings, in the asserted currency, whose unit amounts
sum to exactly zero. -/
theorem C3_synthesized_balance_closure (config : Config)
    (cfgList : List (Option RegexToPadAccountMapping)) (tolFn : Directive α → α)
    (account_ : AccountName) (evs : List (TimelineItem α)) (st st2 : WalkState α)
    (hwalk : walkEvents config cfgList tolFn account_ st evs = .ok st2)
    (hinit : ∀ e ∈ st.new_entries, twoBalancedPostings e.2) :
    ∀ e ∈ st2.new_entries, twoBalancedPostings e.2 :=
  walkEvents_balanced config cfgList tolFn account_ evs st st2 hwalk hinit

/-- Witness for C3: the concrete synthesized transaction of the scenario run
is a balanced two-posting transaction. -/
theorem C3_witness : twoBalancedPostings wSynthTxn :=
  C3_synthesized_balance_closure {} wParsedDefault wTol wAccount
    [.dir wPad, .dir wBal] ⟨none, [], [], [], [], []⟩ wStAfter
    (by decide) (by simp) (2, wSynthTxn) (by decide)

/-! ### Claim C7 -/

/-- Counterexample to C7 as stated: a fourth-day assertion of 200 USD fails
while USD is already padded under the still-active marker, yet the plugin run
returns an empty diagnostics list (and only the single day-3 correction was
inserted): no "unpadded/already-padded discrepancy" diagnostic exists. -/
theorem C7_counterexample :
    (pad_extended [wTxn, wPad, wBal, wBal2] wTol none).map
      (fun r => (r.1.length, r.2)) = .ok (5, []) := by
  decide

/-- C7 (amended): when a Balance assertion fails beyond tolerance while no
pad marker is active, or while the currency is already marked under the
current activation, the step reports no diagnostic and synthesizes no
correction: the state is unchanged except that the currency is marked; the
walk continues and the discrepancy is left to surface at the report layer. -/
theorem C7_amended_silent_skip (config : Config)
    (cfgList : List (Option RegexToPadAccountMapping)) (tolFn : Directive α → α)
    (account_ : AccountName) (st : WalkState α) (entry : Directive α)
    (ba : AccountName) (check : Amount α)
    (hpayload : entry.payload = .balance ba check)
    (hfail : |currencyUnits st.pad_balance check.currency - check.number| > tolFn entry)
    (hcase : st.active_pad = none ∨ check.currency ∈ st.padded_lots) :
    walkStep config cfgList tolFn account_ st (.dir entry) =
      .ok { st with padded_lots := markLot st.padded_lots check.currency } := by
  rw [walkStep_balance config cfgList tolFn account_ st entry ba check hpayload]
  cases hcase with
  | inl hnone => exact processBalance_noActive cfgList tolFn st entry check hnone hfail
  | inr hmem =>
    cases hap : st.active_pad with
    | none => exact hap ▸ processBalance_noActive cfgList tolFn st entry check hap hfail
    | some active =>
      exact hap ▸ processBalance_already cfgList tolFn st entry check active hap hmem hfail

/-- Witness for the amended C7: a failing assertion with no active pad
leaves errors and synthesized entries untouched and only marks USD. -/
theorem C7_witness :
    walkStep {} wParsedDefault wTol wAccount ⟨none, [], [], [], [], []⟩ (.dir wBal) =
      .ok { (⟨none, [], [], [], [], []⟩ : WalkState ℤ) with
        padded_lots := markLot [] "USD" } :=
  C7_amended_silent_skip {} wParsedDefault wTol wAccount
    ⟨none, [], [], [], [], []⟩ wBal wAccount ⟨150, "USD"⟩
    rfl (by decide) (Or.inl rfl)

/-! ### Claim C5 -/

/-- The transaction synthesized for `wBal` when no resolution rule matches:
its source posting carries a null account. -/
def wSynthNone : Directive ℤ := ⟨0, 2, {},
  .txn "P" "(Padding inserted for Balance of USD for difference USD)"
    [⟨some "Assets:Cash", ⟨50, "USD"⟩, none, none, none, some {}⟩,
     ⟨none, ⟨-50, "USD"⟩, none, none, none, some {}⟩]⟩

/-- Counterexample to C5 as stated: with an empty `default_pad_account`
override the source-account resolution returns null for the failing day-3
assertion, yet the plugin reports no diagnostic and synthesizes the adjusting
transaction anyway, with a null source-posting account. -/
theorem C5_counterexample :
    get_source_account wPad (Position.from_amounts (⟨50, "USD"⟩ : Amount ℤ)) [] [] =
      .ok (none, []) ∧
    pad_extended [wTxn, wPad, wBal] wTol
        (some (.ok { default_pad_account := some ([] : List (List String)) })) =
      .ok ([wTxn, wPad, wSynthNone, wBal], []) := by
  constructor
  · decide
  · decide

/-- C5 (amended): when the source-account resolution returns null for a
failing assertion under an active pad (and no costed lot exists in the
asserted currency), the engine reports no diagnostic and still synthesizes
the adjusting transaction, whose source posting carries a null account; the
walk continues. -/
theorem C5_amended_null_source (config : Config)
    (cfgList : List (Option RegexToPadAccountMapping)) (tolFn : Directive α → α)
    (account_ : AccountName) (st : WalkState α) (entry active : Directive α)
    (ba : AccountName) (check : Amount α) (cache2 : Cache)
    (hpayload : entry.payload = .balance ba check)
    (hactive : st.active_pad = some active)
    (hfail : |currencyUnits st.pad_balance check.currency - check.number| > tolFn entry)
    (hnot : check.currency ∉ st.padded_lots)
    (hsrc : get_source_account active
        (Position.from_amounts
          ⟨check.number - currencyUnits st.pad_balance check.currency, check.currency⟩)
        cfgList st.cache = .ok (none, cache2))
    (hnocost : costErrorsFor st.pad_balance entry.meta active check.currency = []) :
    ∃ st2, walkStep config cfgList tolFn account_ st (.dir entry) = .ok st2 ∧
      st2.pad_errors = st.pad_errors ∧
      st2.new_entries = st.new_entries ++ [(active.did, ⟨0, active.date, active.meta,
        .txn FLAG_PADDING
          (mkNarration check (Position.from_amounts
            ⟨check.number - currencyUnits st.pad_balance check.currency, check.currency⟩))
          [⟨some (get_padded_account active),
            ⟨check.number - currencyUnits st.pad_balance check.currency, check.currency⟩,
            none, none, none, some entry.meta⟩,
           ⟨none, ⟨-(check.number - currencyUnits st.pad_balance check.currency), check.currency⟩,
            none, none, none, some entry.meta⟩]⟩)] := by
  rw [walkStep_balance config cfgList tolFn account_ st entry ba check hpayload,
    processBalance_synth cfgList tolFn st entry check active none cache2
      hactive hfail hnot hsrc]
  refine ⟨_, rfl, ?_, rfl⟩
  show st.pad_errors ++ costErrorsFor st.pad_balance entry.meta active check.currency
    = st.pad_errors
  rw [hnocost, List.append_nil]

/-- Witness for the amended C5 at a concrete input. -/
theorem C5_witness :
    ∃ st2, walkStep {} [] wTol wAccount wSt (.dir wBal) = .ok st2 ∧
      st2.pad_errors = wSt.pad_errors ∧
      st2.new_entries = wSt.new_entries ++ [(wPad.did, ⟨0, wPad.date, wPad.meta,
        .txn FLAG_PADDING
          (mkNarration (⟨150, "USD"⟩ : Amount ℤ) (Position.from_amounts
            ⟨150 - currencyUnits wSt.pad_balance "USD", "USD"⟩))
          [⟨some (get_padded_account wPad),
            ⟨150 - currencyUnits wSt.pad_balance "USD", "USD"⟩,
            none, none, none, some wBal.meta⟩,
           ⟨none, ⟨-(150 - currencyUnits wSt.pad_balance "USD"), "USD"⟩,
            none, none, none, some wBal.meta⟩]⟩)] :=
  C5_amended_null_source {} [] wTol wAccount wSt wBal wPad wAccount
    ⟨150, "USD"⟩ [] rfl rfl (by decide) (by decide) (by decide) (by decide)

/-! ### Claim C9 -/

/-- C9: when a correction is about to be synthesized and existing positions
in the asserted currency carry a cost basis, one "cannot pad a costed
position" error is reported per costed lot, yet the engine still computes the
adjustment and synthesizes the transaction. -/
theorem C9_costed_lots_reported_not_blocking (config : Config)
    (cfgList : List (Option RegexToPadAccountMapping)) (tolFn : Directive α → α)
    (account_ : AccountName) (st : WalkState α) (entry active : Directive α)
    (ba : AccountName) (check : Amount α) (sa : Option String) (cache2 : Cache)
    (hpayload : entry.payload = .balance ba check)
    (hactive : st.active_pad = some active)
    (hfail : |currencyUnits st.pad_balance check.currency - check.number| > tolFn entry)
    (hnot : check.currency ∉ st.padded_lots)
    (hsrc : get_source_account active
        (Position.from_amounts
          ⟨check.number - currencyUnits st.pad_balance check.currency, check.currency⟩)
        cfgList st.cache = .ok (sa, cache2))
    (hcost : (st.pad_balance.filter
        (fun p => p.units.currency = check.currency)).filter
        (fun p => p.cost.isSome) ≠ []) :
    ∃ st2, walkStep config cfgList tolFn account_ st (.dir entry) = .ok st2 ∧
      st2.pad_errors = st.pad_errors ++
        costErrorsFor st.pad_balance entry.meta active check.currency ∧
      (costErrorsFor st.pad_balance entry.meta active check.currency).length =
        ((st.pad_balance.filter (fun p => p.units.currency = check.currency)).filter
          (fun p => p.cost.isSome)).length ∧
      0 < (costErrorsFor st.pad_balance entry.meta active check.currency).length ∧
      st2.new_entries.length = st.new_entries.length + 1 := by
  rw [walkStep_balance config cfgList tolFn account_ st entry ba check hpayload,
    processBalance_synth cfgList tolFn st entry check active sa cache2
      hactive hfail hnot hsrc]
  refine ⟨_, rfl, rfl, ?_, ?_, ?_⟩
  · simp [costErrorsFor]
  · simp only [costErrorsFor, List.length_map]
    exact List.length_pos.mpr hcost
  · show (st.new_entries ++ [_]).length = st.new_entries.length + 1
    simp

/-- The walk state holding one costed USD lot under an active pad. -/
def wCostSt : WalkState ℤ :=
  ⟨some wPad, [], [⟨⟨10, "USD"⟩, some ⟨5, "EUR"⟩⟩], [], [], []⟩

/-- Witness for C9 at a concrete input with one costed lot. -/
theorem C9_witness :
    ∃ st2, walkStep {} wParsedDefault wTol wAccount wCostSt (.dir wBal) = .ok st2 ∧
      st2.pad_errors = wCostSt.pad_errors ++
        costErrorsFor wCostSt.pad_balance wBal.meta wPad "USD" ∧
      (costErrorsFor wCostSt.pad_balance wBal.meta wPad "USD").length =
        ((wCostSt.pad_balance.filter (fun p => p.units.currency = "USD")).filter
          (fun p => p.cost.isSome)).length ∧
      0 < (costErrorsFor wCostSt.pad_balance wBal.meta wPad "USD").length ∧
      st2.new_entries.length = wCostSt.new_entries.length + 1 :=
  C9_costed_lots_reported_not_blocking {} wParsedDefault wTol wAccount wCostSt wBal wPad
    wAccount ⟨150, "USD"⟩ (some "Expenses:Unattributed:Cash")
    [((wAccount, 1), "Expenses:Unattributed:Cash")]
    rfl rfl (by decide) (by decide) (by decide) (by decide)

/-! ### Claim C4 -/

/-- C4, evaluated at the failing input: a pad marker that produced zero
synthesized transactions is RETAINED in the output, both with
`generate_errors_on_unused_pad_entries` false (silently) and true (alongside
exactly one "Unused Pad entry" diagnostic).  The `continue` under the
source's "Skip the pad entry" comment runs after the marker has already been
appended, so no marker is ever dropped. -/
theorem C4_unused_pad_retained :
    pad_extended [wPad] wTol none = .ok ([wPad], []) ∧
    pad_extended [wPad] wTol
        (some (.ok { generate_errors_on_unused_pad_entries := true })) =
      .ok ([wPad], [⟨some wPad.meta, "Unused Pad entry", some wPad⟩]) := by
  constructor
  · decide
  · decide

/-! ### Claim C8 -/

/-- Counterexample to C8 as stated: an invalid `default_pad_account` item
(five elements) is a configuration error, detected before reconciliation, but
the plugin raises (modelled as `Except.error`) instead of returning the
original directive list together with a diagnostic. -/
theorem C8_counterexample :
    pad_extended ([] : List (Directive ℤ)) wTol
        (some (.ok { default_pad_account := some [["^.*$", "a", "b", "c", "d"]] })) =
      .error "Invalid default pad account configuration" := by
  decide

/-- C8 (amended): a malformed configuration string, and erroneous
directive-declared config entries, are detected before any reconciliation
and make the plugin return the original, unmodified directive list together
with the error diagnostics (invalid `default_pad_account` items instead
raise, as the counterexample shows). -/
theorem C8_amended_eager_config_errors :
    (∀ (entries : List (Directive α)) (tolFn : Directive α → α) (e : String),
      pad_extended entries tolFn (some (.error e)) =
        .ok (entries, [⟨none, "Invalid configuration string: " ++ e, none⟩])) ∧
    (∀ (entries : List (Directive α)) (tolFn : Directive α → α),
      (get_directives_defined_config entries).2 ≠ [] →
      pad_extended entries tolFn none =
        .ok (entries, (get_directives_defined_config entries).2)) ∧
    (∀ (entries : List (Directive α)) (tolFn : Directive α → α) (cfg : Config)
        (defaultCfg : List (Option RegexToPadAccountMapping)),
      (cfg.default_pad_account.getD DEFAULT_DEFAULT_PAD_ACCOUNT_CONFIG).reverse.mapM
          parse_pad_account_item = .ok defaultCfg →
      (get_directives_defined_config entries).2 ≠ [] →
      pad_extended entries tolFn (some (.ok cfg)) =
        .ok (entries, (get_directives_defined_config entries).2)) := by
  refine ⟨fun entries tolFn e => rfl, ?_, ?_⟩
  · intro entries tolFn hne
    have hD : (DEFAULT_DEFAULT_PAD_ACCOUNT_CONFIG).reverse.mapM parse_pad_account_item =
        .ok wParsedDefault := by decide
    have hempty : ((get_directives_defined_config entries).2.isEmpty) = false := by
      cases hl : (get_directives_defined_config entries).2 with
      | nil => exact absurd hl hne
      | cons x xs => rfl
    simp only [pad_extended, Option.getD, hD, hempty, Bool.false_eq_true, if_false]
  · intro entries tolFn cfg defaultCfg hparse hne
    have hempty : ((get_directives_defined_config entries).2.isEmpty) = false := by
      cases hl : (get_directives_defined_config entries).2 with
      | nil => exact absurd hl hne
      | cons x xs => rfl
    simp only [pad_extended, hparse, hempty, Bool.false_eq_true, if_false]

/-- A `pad-ext-config` directive missing its `account_regex` key. -/
def wBadCfg : Directive ℤ := ⟨6, 1, {}, .custom "pad-ext-config" []⟩

/-- Witness for the amended C8 at concrete inputs. -/
theorem C8_witness :
    pad_extended ([wTxn] : List (Directive ℤ)) wTol (some (.error "syntax error")) =
      .ok ([wTxn], [⟨none, "Invalid configuration string: " ++ "syntax error", none⟩]) ∧
    pad_extended [wTxn, wBadCfg, wPad, wBal] wTol none =
      .ok ([wTxn, wBadCfg, wPad, wBal],
        (get_directives_defined_config [wTxn, wBadCfg, wPad, wBal]).2) :=
  ⟨C8_amended_eager_config_errors.1 [wTxn] wTol "syntax error",
   C8_amended_eager_config_errors.2.1 [wTxn, wBadCfg, wPad, wBal] wTol (by decide)⟩

/-! ### Claim C6 -/

/-- Rules that do not match the account are skipped by the scan. -/
theorem scanConfig_skip (pre : List RegexToPadAccountMapping)
    (rest : List (Option RegexToPadAccountMapping)) (acct : AccountName)
    (sign : Int) (ty nm : String)
    (hpre : ∀ m0 ∈ pre, m0.regex.matchb acct = false) :
    scanConfig (pre.map some ++ rest) acct sign ty nm =
      scanConfig rest acct sign ty nm := by
  induction pre with
  | nil => rfl
  | cons m0 pre0 ih =>
    simp only [List.map_cons, List.cons_append, scanConfig]
    rw [hpre m0 (by simp)]
    simp only [Bool.false_eq_true, if_false]
    exact ih (fun x hx => hpre x (by simp [hx]))

/-- C6: the source-account resolution precedence.
(1) A native Pad marker returns its `source_account` field unconditionally,
ignoring sign, cache and every rule.
(2) A truthy `pad_account` metadata value on a non-native marker is returned
unconditionally.
(3) Directive-declared config entries are collected most-recently-declared
first (and `pad_extended` places them, as `dirCfg.1.map some ++ defaultCfg`,
ahead of the default table).
(4) Otherwise the first rule whose regex matches the padded account path
wins; a rule with an income/expenses pair selects the income template when
the imbalance sign is positive and the expenses template otherwise.
(5) A matching single-template rule yields its template irrespective of
sign. -/
theorem C6_resolution_precedence :
    (∀ (did : Nat) (date : Date) (meta : Meta) (a src : AccountName)
        (diff : Position α) (cfg : List (Option RegexToPadAccountMapping))
        (cache : Cache),
      get_source_account (⟨did, date, meta, .pad a src⟩ : Directive α) diff cfg cache =
        .ok (some src, cache)) ∧
    (∀ (d : Directive α) (t : String) (vs : List CustomValue)
        (diff : Position α) (cfg : List (Option RegexToPadAccountMapping))
        (cache : Cache),
      d.payload = .custom t vs → truthy d.meta.pad_account = true →
      get_source_account d diff cfg cache = .ok (d.meta.pad_account, cache)) ∧
    (∀ (entries : List (Directive α)) (d1 d2 : Directive α)
        (m1 m2 : RegexToPadAccountMapping),
      entries.filter isPadConfigEntry = [d1, d2] →
      parseConfigEntry d1 = .ok m1 → parseConfigEntry d2 = .ok m2 →
      get_directives_defined_config entries = ([m2, m1], [])) ∧
    (∀ (d : Directive α) (t : String) (vs : List CustomValue) (diff : Position α)
        (pre : List RegexToPadAccountMapping) (m : RegexToPadAccountMapping)
        (post : List (Option RegexToPadAccountMapping)) (cache : Cache),
      d.payload = .custom t vs → truthy d.meta.pad_account = false →
      lookupCache cache (get_padded_account d, position_sign diff.units.number) = none →
      (∀ m0 ∈ pre, m0.regex.matchb (get_padded_account d) = false) →
      m.regex.matchb (get_padded_account d) = true →
      (truthy m.pad_account_expenses && truthy m.pad_account_income) = true →
      get_source_account d diff (pre.map some ++ some m :: post) cache =
        .ok (some (formatTemplate
            ((if position_sign diff.units.number > 0 then m.pad_account_income
              else m.pad_account_expenses).getD "")
            ((pySplit ':' (get_padded_account d)).headD "")
            (String.intercalate ":" (pySplit ':' (get_padded_account d)).tail)),
          ((get_padded_account d, position_sign diff.units.number),
            formatTemplate
              ((if position_sign diff.units.number > 0 then m.pad_account_income
                else m.pad_account_expenses).getD "")
              ((pySplit ':' (get_padded_account d)).headD "")
              (String.intercalate ":" (pySplit ':' (get_padded_account d)).tail))
            :: cache)) ∧
    (∀ (d : Directive α) (t : String) (vs : List CustomValue) (diff : Position α)
        (pre : List RegexToPadAccountMapping) (m : RegexToPadAccountMapping)
        (post : List (Option RegexToPadAccountMapping)) (cache : Cache),
      d.payload = .custom t vs → truthy d.meta.pad_account = false →
      lookupCache cache (get_padded_account d, position_sign diff.units.number) = none →
      (∀ m0 ∈ pre, m0.regex.matchb (get_padded_account d) = false) →
      m.regex.matchb (get_padded_account d) = true →
      (truthy m.pad_account_expenses && truthy m.pad_account_income) = false →
      truthy m.pad_account = true →
      get_source_account d diff (pre.map some ++ some m :: post) cache =
        .ok (some (formatTemplate (m.pad_account.getD "")
            ((pySplit ':' (get_padded_account d)).headD "")
            (String.intercalate ":" (pySplit ':' (get_padded_account d)).tail)),
          ((get_padded_account d, position_sign diff.units.number),
            formatTemplate (m.pad_account.getD "")
              ((pySplit ':' (get_padded_account d)).headD "")
              (String.intercalate ":" (pySplit ':' (get_padded_account d)).tail))
            :: cache)) := by
  refine ⟨?_, ?_, ?_, ?_, ?_⟩
  · intro did date meta a src diff cfg cache
    rfl
  · intro d t vs diff cfg cache hd hmeta
    simp only [get_source_account, hd, hmeta, if_true]
  · intro entries d1 d2 m1 m2 hfilter hp1 hp2
    simp only [get_directives_defined_config, hfilter, List.reverse_cons,
      List.reverse_nil, List.nil_append, List.foldl, hp1, hp2]
    rfl
  · intro d t vs diff pre m post cache hd hmeta hcache hpre hmatch htr
    simp only [get_source_account, hd, hmeta, Bool.false_eq_true, if_false, hcache]
    rw [scanConfig_skip pre _ _ _ _ _ hpre]
    simp only [scanConfig, hmatch, if_true, htr]
    by_cases hsign : position_sign diff.units.number > 0
    · simp only [if_pos hsign]
    · simp only [if_neg hsign]
  · intro d t vs diff pre m post cache hd hmeta hcache hpre hmatch htr hpa
    simp only [get_source_account, hd, hmeta, Bool.false_eq_true, if_false, hcache]
    rw [scanConfig_skip pre _ _ _ _ _ hpre]
    simp only [scanConfig, hmatch, if_true, htr, Bool.false_eq_true, if_false, hpa]

/-- A custom pad marker carrying an explicit `pad_account` metadata value. -/
def wPadMeta : Directive ℤ :=
  ⟨8, 2, { pad_account := some "Equity:Fix" }, .custom "pad-ext" [.account wAccount]⟩

def wCfgD1 : Directive ℤ :=
  ⟨9, 1, { account_regex := some "^Assets:", pad_account := some "Equity:R1" },
    .custom "pad-ext-config" []⟩

def wCfgD2 : Directive ℤ :=
  ⟨10, 1, { account_regex := some "^Assets:", pad_account := some "Equity:R2" },
    .custom "pad-ext-config" []⟩

def wCompiledAssets : CompiledRegex :=
  ⟨[⟨.lit 'A', false⟩, ⟨.lit 's', false⟩, ⟨.lit 's', false⟩, ⟨.lit 'e', false⟩,
    ⟨.lit 't', false⟩, ⟨.lit 's', false⟩, ⟨.lit ':', false⟩], false⟩

def wRuleR1 : RegexToPadAccountMapping := ⟨wCompiledAssets, some "Equity:R1", none, none⟩

def wRuleR2 : RegexToPadAccountMapping := ⟨wCompiledAssets, some "Equity:R2", none, none⟩

def wRuleNoMatch : RegexToPadAccountMapping :=
  ⟨⟨[⟨.lit 'Z', false⟩], false⟩, some "Equity:Z", none, none⟩

def wRulePair : RegexToPadAccountMapping :=
  ⟨⟨[⟨.dot, true⟩], true⟩, none, some "Expenses:Fix:{name}", some "Income:Fix:{name}"⟩

def wRuleSingle : RegexToPadAccountMapping :=
  ⟨⟨[⟨.dot, true⟩], true⟩, some "Equity:Single:{name}", none, none⟩

/-- Witness for C6 at concrete inputs: a native Pad returns its source
account; explicit metadata wins; of two declared config directives the later
one is scanned first; a pair rule selects the income template for a positive
sign past a non-matching rule; a single-template rule applies regardless. -/
theorem C6_witness :
    get_source_account (⟨7, 2, {}, .pad "Assets:Cash" "Equity:Opening"⟩ : Directive ℤ)
        (Position.from_amounts ⟨50, "USD"⟩) [] [] = .ok (some "Equity:Opening", []) ∧
    get_source_account wPadMeta (Position.from_amounts (⟨50, "USD"⟩ : Amount ℤ))
        wParsedDefault [] = .ok (some "Equity:Fix", []) ∧
    get_directives_defined_config [wTxn, wCfgD1, wCfgD2] = ([wRuleR2, wRuleR1], []) ∧
    get_source_account wPad (Position.from_amounts (⟨50, "USD"⟩ : Amount ℤ))
        ([wRuleNoMatch].map some ++ some wRulePair :: []) [] =
      .ok (some "Income:Fix:Cash", [((wAccount, 1), "Income:Fix:Cash")]) ∧
    get_source_account wPad (Position.from_amounts (⟨50, "USD"⟩ : Amount ℤ))
        ([wRuleNoMatch].map some ++ some wRuleSingle :: []) [] =
      .ok (some "Equity:Single:Cash", [((wAccount, 1), "Equity:Single:Cash")]) :=
  ⟨(C6_resolution_precedence (α := ℤ)).1 7 2 {} "Assets:Cash" "Equity:Opening"
      (Position.from_amounts ⟨50, "USD"⟩) [] [],
   (C6_resolution_precedence (α := ℤ)).2.1 wPadMeta "pad-ext" [.account wAccount]
      (Position.from_amounts ⟨50, "USD"⟩) wParsedDefault [] rfl (by decide),
   (C6_resolution_precedence (α := ℤ)).2.2.1 [wTxn, wCfgD1, wCfgD2] wCfgD1 wCfgD2
      wRuleR1 wRuleR2 (by decide) (by decide) (by decide),
   (C6_resolution_precedence (α := ℤ)).2.2.2.1 wPad "pad-ext" [.account wAccount]
      (Position.from_amounts ⟨50, "USD"⟩) [wRuleNoMatch] wRulePair [] []
      rfl (by decide) (by decide) (by decide) (by decide) (by decide),
   (C6_resolution_precedence (α := ℤ)).2.2.2.2 wPad "pad-ext" [.account wAccount]
      (Position.from_amounts ⟨50, "USD"⟩) [wRuleNoMatch] wRuleSingle [] []
      rfl (by decide) (by decide) (by decide) (by decide) (by decide) (by decide)⟩

/-! ### Claim C10 -/

theorem nil_mem_starSuffixes : ∀ (cs : List Char), '\n' ∉ cs →
    ([] : List Char) ∈ starSuffixes RAtom.dot cs := by
  intro cs
  induction cs with
  | nil =>
    intro _
    simp [starSuffixes]
  | cons c cs ih =>
    intro h
    have hcc : c ≠ '\n' := fun hq => h (by rw [hq]; exact List.mem_cons_self _ _)
    have hrest := ih (fun hm => h (List.mem_cons_of_mem _ hm))
    simp only [starSuffixes, RAtom.matchesChar]
    rw [if_pos (by simpa using hcc)]
    exact List.mem_cons_of_mem _ hrest

/-- The catch-all pattern of the default table matches every account path
(account names contain no newline). -/
theorem matchb_dotstar (s : String) (h : '\n' ∉ s.toList) :
    CompiledRegex.matchb ⟨[⟨.dot, true⟩], true⟩ s = true := by
  simp only [CompiledRegex.matchb, matchSeq, if_true]
  rw [List.any_eq_true]
  exact ⟨[], nil_mem_starSuffixes s.toList h, rfl⟩

theorem formatTemplate_expenses (ty nm : String) :
    formatTemplate "Expenses:Unattributed:{name}" ty nm =
      "Expenses:Unattributed:" ++ nm := by
  obtain ⟨l⟩ := nm
  simp only [formatTemplate, formatChars, String.toList, List.append_nil]
  rfl

theorem formatTemplate_income (ty nm : String) :
    formatTemplate "Income:Unattributed:{name}" ty nm =
      "Income:Unattributed:" ++ nm := by
  obtain ⟨l⟩ := nm
  simp only [formatTemplate, formatChars, String.toList, List.append_nil]
  rfl

/-- C10: the default table item parses with its second element in the income
slot, so under the built-in default table (and no overriding rule) the
resolution yields the Expenses-named account for a positive imbalance sign
and the Income-named account for a negative one, each followed by the
account sub-path. -/
theorem C10_default_table_resolution :
    DEFAULT_DEFAULT_PAD_ACCOUNT_CONFIG.reverse.mapM parse_pad_account_item =
      .ok wParsedDefault ∧
    (∀ (d : Directive α) (t : String) (vs : List CustomValue) (diff : Position α)
        (cache : Cache),
      d.payload = .custom t vs → truthy d.meta.pad_account = false →
      '\n' ∉ (get_padded_account d).toList →
      lookupCache cache (get_padded_account d, position_sign diff.units.number) = none →
      get_source_account d diff wParsedDefault cache =
        .ok (some ((if position_sign diff.units.number > 0 then "Expenses:Unattributed:"
              else "Income:Unattributed:") ++
            String.intercalate ":" (pySplit ':' (get_padded_account d)).tail),
          ((get_padded_account d, position_sign diff.units.number),
            (if position_sign diff.units.number > 0 then "Expenses:Unattributed:"
              else "Income:Unattributed:") ++
            String.intercalate ":" (pySplit ':' (get_padded_account d)).tail) :: cache)) := by
  constructor
  · decide
  · intro d t vs diff cache hd hmeta hnl hcache
    simp only [get_source_account, hd, hmeta, Bool.false_eq_true, if_false, hcache]
    have hmatch := matchb_dotstar (get_padded_account d) hnl
    simp only [wParsedDefault, scanConfig, hmatch, if_true]
    by_cases hsign : position_sign diff.units.number > 0
    · simp only [if_pos hsign, Option.getD_some, formatTemplate_expenses]
      rfl
    · simp only [if_neg hsign, Option.getD_some, formatTemplate_income]
      rfl

/-- Witness for C10: positive and negative imbalances on the scenario pad
marker resolve to the Expenses-named and Income-named accounts. -/
theorem C10_witness :
    get_source_account wPad (Position.from_amounts (⟨50, "USD"⟩ : Amount ℤ))
        wParsedDefault [] =
      .ok (some "Expenses:Unattributed:Cash",
        [((wAccount, 1), "Expenses:Unattributed:Cash")]) ∧
    get_source_account wPad (Position.from_amounts (⟨-50, "USD"⟩ : Amount ℤ))
        wParsedDefault [] =
      .ok (some "Income:Unattributed:Cash",
        [((wAccount, -1), "Income:Unattributed:Cash")]) :=
  ⟨(C10_default_table_resolution (α := ℤ)).2 wPad "pad-ext" [.account wAccount]
      (Position.from_amounts ⟨50, "USD"⟩) [] rfl (by decide) (by decide) rfl,
   (C10_default_table_resolution (α := ℤ)).2 wPad "pad-ext" [.account wAccount]
      (Position.from_amounts ⟨-50, "USD"⟩) [] rfl (by decide) (by decide) rfl⟩

end PadExt
